import Mathlib

/-!
Verification of the Torn City API client layer (`src/torn_api.py`).

The development shallowly embeds the request pipeline (`_make_request`),
the session manager (`_get_session` / `close`), the market normalizer
(`get_item_market`) and the rate limiter into Lean.  JSON payloads are an
inductive type; Python dictionaries are association lists with unique
keys (Python `dict` cannot hold a duplicate key); network behaviour is an
oracle value describing the outcome of one dispatch; Python exceptions
raised inside the `try` block are an `Except` value that the embedded
handlers consume.
-/

/-- JSON values as decoded by `response.json()`.  Numbers are modelled as
integers (the identifiers and error codes this layer inspects are
integral). -/
inductive Json where
  | null
  | bool (b : Bool)
  | num (n : Int)
  | str (s : String)
  | arr (xs : List Json)
  | obj (fields : List (String × Json))

/-- Python truthiness (`if data`, `a or b`): `None`, `False`, `0`, the
empty string, the empty list and the empty dict are falsy. -/
def Json.truthy : Json → Bool
  | .null => false
  | .bool b => b
  | .num n => n != 0
  | .str s => !s.isEmpty
  | .arr xs => !xs.isEmpty
  | .obj fs => !fs.isEmpty

mutual

/-- Python `==` on decoded JSON values.  Scalars compare by value, with
the numeric coercion `True == 1`, `False == 0`; lists compare pointwise.
Dict comparison is structural here; the client only ever compares
identifier scalars, where this coincides with Python. -/
def pyEq : Json → Json → Bool
  | .null, .null => true
  | .bool a, .bool b => a == b
  | .bool a, .num n => (if a then (1 : Int) else 0) == n
  | .num n, .bool a => n == (if a then (1 : Int) else 0)
  | .num a, .num b => a == b
  | .str a, .str b => a == b
  | .arr xs, .arr ys => pyEqList xs ys
  | .obj fs, .obj gs => pyEqObj fs gs
  | _, _ => false

def pyEqList : List Json → List Json → Bool
  | [], [] => true
  | x :: xs, y :: ys => pyEq x y && pyEqList xs ys
  | _, _ => false

def pyEqObj : List (String × Json) → List (String × Json) → Bool
  | [], [] => true
  | (k, v) :: fs, (k₂, v₂) :: gs => k == k₂ && pyEq v v₂ && pyEqObj fs gs
  | _, _ => false

end

/-- First binding of key `k` in a decoded JSON object (Python dict keys
are unique, so first match is the binding). -/
def lookupField : List (String × Json) → String → Option Json
  | [], _ => none
  | (k₂, v) :: rest, k => if k₂ == k then some v else lookupField rest k

/-- Python `d.get(k)`: the bound value, or `None` when the key is
absent. -/
def getFieldD (fs : List (String × Json)) (k : String) : Json :=
  (lookupField fs k).getD Json.null

/-- Python `a or b`: `a` when `a` is truthy, otherwise `b`. -/
def pyOr (a b : Json) : Json :=
  if a.truthy then a else b

/-- Whether `pat` occurs at the start of `l`. -/
def chStarts : List Char → List Char → Bool
  | [], _ => true
  | _ :: _, [] => false
  | a :: as, b :: bs => a == b && chStarts as bs

/-- Whether `pat` occurs anywhere inside `l`. -/
def chFind (pat : List Char) : List Char → Bool
  | [] => chStarts pat []
  | b :: bs => chStarts pat (b :: bs) || chFind pat bs

/-- Python `pat in s` on strings: substring test. -/
def strContains (s pat : String) : Bool :=
  chFind pat.data s.data

/-- An `aiohttp.ClientSession` handle as this layer observes it: an
identity (`id`, distinguishing distinct handles) and its `closed`
flag. -/
structure Session where
  id : Nat
  closed : Bool
deriving DecidableEq

/-- Query-parameter mapping (`params` dict): string keys to string
values. -/
abbrev Params := List (String × String)

/-- First binding of key `k` in a parameter mapping. -/
def lookupStr : Params → String → Option String
  | [], _ => none
  | (k₂, v) :: rest, k => if k₂ == k then some v else lookupStr rest k

/-- Python `params[k] = v` on a dict: replace the binding of `k` when
present, otherwise append a new binding. -/
def setParam : Params → String → String → Params
  | [], k, v => [(k, v)]
  | (k₂, v₂) :: rest, k, v =>
      if k₂ == k then (k, v) :: rest else (k₂, v₂) :: setParam rest k v

/-- Mutable state of a `TornAPI` instance: configuration read in
`__init__` (`base_url`, `api_key`), the cached `session`, a counter
`nextId` supplying fresh session identities, and the number of completed
`rate_limiter.acquire()` calls. -/
structure ApiState where
  baseUrl : String
  apiKey : Option String
  session : Option Session
  nextId : Nat
  acquireCount : Nat

/-- Python `not self.api_key`: true when the key is unset (`None`) or the
empty string. -/
def keyFalsy : Option String → Bool
  | none => true
  | some s => s.isEmpty

/-- The configured key as the string injected into `params` (only read
after the falsiness check succeeds). -/
def apiKeyStr (st : ApiState) : String :=
  st.apiKey.getD ""

/-- Embedding of `TornAPI._get_session`: reuse the cached session when it
exists and is not closed, otherwise create a fresh one (with a fresh
identity and `closed = False`) and cache it. -/
def getSession (st : ApiState) : Session × ApiState :=
  match st.session with
  | some s =>
      if s.closed then
        let s₂ : Session := { id := st.nextId, closed := false }
        (s₂, { st with session := some s₂, nextId := st.nextId + 1 })
      else
        (s, st)
  | none =>
      let s₂ : Session := { id := st.nextId, closed := false }
      (s₂, { st with session := some s₂, nextId := st.nextId + 1 })

/-- Embedding of `TornAPI.close`: `await self.session.close()` marks the
cached handle closed when one exists and is open; otherwise nothing
happens. -/
def closeApi (st : ApiState) : ApiState :=
  match st.session with
  | some s =>
      if s.closed then st else { st with session := some { s with closed := true } }
  | none => st

/-- Oracle describing how one `session.get` dispatch turns out:
a timeout (`asyncio.TimeoutError`), some other raised exception
(connection failure and the like), or an HTTP response carrying a status
code and a body whose JSON decoding either succeeds or raises. -/
inductive NetResult where
  | timeout
  | exn (msg : String)
  | resp (status : Nat) (body : Except String Json)

/-- A Python exception escaping the dispatch-and-classify block of
`_make_request`, before the `except` clauses run. -/
inductive PyExn where
  | timeoutError
  | otherExn (msg : String)

/-- One message logged by `_make_request`, kept structured: the
constructor records exactly the data the source interpolates into the
f-string. -/
inductive LogMsg where
  | noKey
  | apiError (detail : Json)
  | httpError (status : Nat) (url : String)
  | timeoutMsg (url : String)
  | requestExn (url : String) (msg : String)

/-- The URL built by `_make_request`: base URL and endpoint only; query
parameters are passed separately and never enter the URL string used in
log messages. -/
def reqUrl (baseUrl endpoint : String) : String :=
  baseUrl ++ "/" ++ endpoint

/-- Embedding of the `'error' in data` check plus the
`logger.error(f"API error: {data['error']}")` line.  On a dict it is a
key test and the subscript yields the detail; on a list or a string the
membership test is element/substring search and — when it succeeds — the
string subscript `data['error']` raises `TypeError`; on any other value
the membership test itself raises `TypeError`. -/
def checkErrorKey (data : Json) : Except PyExn (Option Json × List LogMsg) :=
  match data with
  | .obj fs =>
      match lookupField fs "error" with
      | some detail => .ok (none, [LogMsg.apiError detail])
      | none => .ok (some (.obj fs), [])
  | .arr xs =>
      if xs.any (fun x => pyEq x (.str "error")) then
        .error (.otherExn "TypeError")
      else
        .ok (some (.arr xs), [])
  | .str s =>
      if strContains s "error" then
        .error (.otherExn "TypeError")
      else
        .ok (some (.str s), [])
  | _ => .error (.otherExn "TypeError")

/-- The body of the `try` block of `_make_request` after the session is
obtained, as a fallible computation: a 200 response is decoded and
checked for an `error` key; a non-200 response is logged and yields the
`None` sentinel; timeouts and other dispatch failures propagate as
exceptions for the `except` clauses. -/
def tryDispatch (net : NetResult) (url : String) :
    Except PyExn (Option Json × List LogMsg) :=
  match net with
  | .timeout => .error .timeoutError
  | .exn m => .error (.otherExn m)
  | .resp status body =>
      if status = 200 then
        match body with
        | .error m => .error (.otherExn m)
        | .ok data => checkErrorKey data
      else
        .ok (none, [LogMsg.httpError status url])

/-- Everything one `_make_request` call produces: the updated client
state, the returned value (`None` sentinel or decoded payload), the
caller's parameter dict after the call (callers passing `None` observe
nothing), the URL/parameters actually dispatched (when a dispatch was
attempted), the session handle used, and the log messages emitted. -/
structure MRes where
  state : ApiState
  result : Option Json
  callerParams : Option Params
  dispatched : Option (String × Params)
  usedSession : Option Session
  log : List LogMsg

/-- Embedding of `TornAPI._make_request`.  With no usable key it logs and
returns the sentinel immediately; otherwise it consumes one rate-limiter
token, injects the key into the parameter dict (mutating the caller's
dict when one was passed), obtains the session, dispatches, and converts
every failure into the `None` sentinel via the `except` clauses. -/
def makeRequest (st : ApiState) (net : NetResult) (endpoint : String)
    (params : Option Params) : MRes :=
  if keyFalsy st.apiKey then
    { state := st, result := none, callerParams := params,
      dispatched := none, usedSession := none, log := [LogMsg.noKey] }
  else
    let st₁ : ApiState := { st with acquireCount := st.acquireCount + 1 }
    let url := reqUrl st.baseUrl endpoint
    let p := setParam (params.getD []) "key" (apiKeyStr st)
    let cp := params.map (fun ps => setParam ps "key" (apiKeyStr st))
    let sst := getSession st₁
    match tryDispatch net url with
    | .ok (res, lg) =>
        { state := sst.2, result := res, callerParams := cp,
          dispatched := some (url, p), usedSession := some sst.1, log := lg }
    | .error .timeoutError =>
        { state := sst.2, result := none, callerParams := cp,
          dispatched := some (url, p), usedSession := some sst.1,
          log := [LogMsg.timeoutMsg url] }
    | .error (.otherExn m) =>
        { state := sst.2, result := none, callerParams := cp,
          dispatched := some (url, p), usedSession := some sst.1,
          log := [LogMsg.requestExn url m] }

/-- Identifier resolution applied to a primary-endpoint listing:
`item.get('item_id') or item.get('ID') or item.get('itemID')` — the
first *truthy* value in that order (a falsy value such as `0` or `None`
falls through to the next field name). -/
def resolveMarketId (fs : List (String × Json)) : Json :=
  pyOr (getFieldD fs "item_id") (pyOr (getFieldD fs "ID") (getFieldD fs "itemID"))

/-- The filter predicate of the primary loop of `get_item_market`:
the entry must be a dict (`isinstance(item, dict)`) whose resolved
identifier compares equal to the requested one. -/
def itemMatchesPrimary (itemId : Json) (item : Json) : Bool :=
  match item with
  | .obj fs => pyEq (resolveMarketId fs) itemId
  | _ => false

/-- Listings selected from the primary (`itemmarket`) response:
the payload must be truthy and a dict; `market_items` is
`data.get('itemmarket', data)` and is only iterated when it is a list
(`isinstance(market_items, list)`); otherwise no primary listing is
selected and control falls through to the bazaar query. -/
def primaryListings (data? : Option Json) (itemId : Json) : List Json :=
  match data? with
  | some data =>
      if data.truthy then
        match data with
        | .obj fs =>
            let marketItems :=
              match lookupField fs "itemmarket" with
              | some v => v
              | none => Json.obj fs
            match marketItems with
            | .arr items => items.filter (itemMatchesPrimary itemId)
            | _ => []
        | _ => []
      else []
  | none => []

/-- The filter predicate of the bazaar loop of `get_item_market`:
the entry must be a dict whose `ID` field compares equal to the requested
identifier. -/
def itemMatchesBazaar (itemId : Json) (item : Json) : Bool :=
  match item with
  | .obj fs => pyEq (getFieldD fs "ID") itemId
  | _ => false

/-- Listings the fallback (`market?selections=bazaar`) query contributes
to the returned value.  The guard is `data and 'bazaar' in data`; the
loop runs over `data.get('bazaar', [])` when that value is a list.  All
remaining shapes yield no listing: a non-list `bazaar` value either
iterates over non-dict elements (dict keys, string characters — filtered
out) or raises inside the `try`, and a non-dict payload either fails the
guard or raises on `data.get` — and both the fall-through and the
`except` handler of `get_item_market` return the empty list. -/
def secondaryListings (data? : Option Json) (itemId : Json) : List Json :=
  match data? with
  | some (Json.obj fs) =>
      if (Json.obj fs).truthy && (lookupField fs "bazaar").isSome then
        match (lookupField fs "bazaar").getD (Json.arr []) with
        | .arr items => items.filter (itemMatchesBazaar itemId)
        | _ => []
      else []
  | _ => []

/-- Everything one `get_item_market` call produces: the returned value
(always a JSON list), the outcome of the primary request, the outcome of
the fallback request when it was issued (`none` when the bazaar endpoint
was never queried), and the final client state. -/
structure MarketRes where
  result : Json
  primaryCall : MRes
  secondaryCall : Option MRes
  state : ApiState

/-- Embedding of `TornAPI.get_item_market`: query `itemmarket` with an
empty parameter dict and filter by resolved identifier; when that yields
a non-empty list return it at once, otherwise query
`market?selections=bazaar` and return its matching listings — the empty
list when there are none (also on every internal exception path, via the
`except` handler). -/
def getItemMarket (st : ApiState) (net₁ net₂ : NetResult) (itemId : Json) :
    MarketRes :=
  let r₁ := makeRequest st net₁ "itemmarket" (some [])
  let pl := primaryListings r₁.result itemId
  if pl.isEmpty then
    let r₂ := makeRequest r₁.state net₂ "market" (some [("selections", "bazaar")])
    let sl := secondaryListings r₂.result itemId
    { result := Json.arr sl, primaryCall := r₁, secondaryCall := some r₂,
      state := r₂.state }
  else
    { result := Json.arr pl, primaryCall := r₁, secondaryCall := none,
      state := r₁.state }

/-- Modelled from the spec: the `RateLimiter` class imported by
`torn_api.py` from `src/rate_limiter.py` is not under `src/`.  Per spec
§4.1 it is a token-bucket gate of `capacity` tokens per rolling window of
`W` seconds whose refill policy must guarantee that no more than
`capacity` acquisitions complete within any `W`-second interval, serving
callers in FIFO order.  State is the list of past grant timestamps,
newest first.  `rlAcquire hist t` handles one `acquire()` that reaches
the head of the queue at time `t`: when fewer than `capacity` grants have
ever been issued the token is granted immediately; otherwise the caller
is delayed until a full window has elapsed since the `capacity`-th most
recent grant.  It returns the completion time of the acquisition and the
new grant history. -/
def rlAcquire (cap W : Nat) (hist : List Nat) (t : Nat) : Nat × List Nat :=
  if cap ≤ hist.length then
    let g := max t (hist.getD (cap - 1) 0 + W)
    (g, g :: hist)
  else
    (t, t :: hist)

/-- Modelled from the spec: run a FIFO sequence of `acquire()` calls
arriving at the given times through the rate limiter, returning the
final grant history (newest first). -/
def rlRun (cap W : Nat) (hist : List Nat) : List Nat → List Nat
  | [] => hist
  | t :: ts => rlRun cap W (rlAcquire cap W hist t).2 ts

/-- Whether a grant timestamp falls inside the half-open sliding window
starting at `τ` of length `W`. -/
def inWin (τ W g : Nat) : Bool :=
  decide (τ ≤ g) && decide (g < τ + W)

/-- Invariant of the grant history between acquisitions, relative to a
lower bound `t0` on every future arrival time: the history is
nonincreasing (newest first); grants `cap` apart are at least `W`
seconds apart; and the newest grant is bounded in terms of `t0` and the
`(cap+1)`-th newest grant. -/
structure RLInv (cap W t0 : Nat) (hist : List Nat) : Prop where
  sorted : hist.Sorted (fun a b => b ≤ a)
  spacing : ∀ n g g₂, hist[n]? = some g → hist[n + cap]? = some g₂ → g₂ + W ≤ g
  headDeep : ∀ h gc, hist.head? = some h → hist[cap]? = some gc →
    h ≤ max t0 (gc + W)
  headShallow : hist[cap]? = none → ∀ h, hist.head? = some h → h ≤ t0

/-- First non-null of two values (`null` models an absent field or a
stored JSON `null`). -/
def firstNonNull (a b : Json) : Json :=
  match a with
  | .null => b
  | v => v

/-- Identifier resolution as the specification words it: the first
NON-NULL value among the accepted field names `item_id`, `ID`, `itemID`
in priority order.  Reference definition written from the spec text, to
be compared against `resolveMarketId` (the code resolves the first
*truthy* value instead). -/
def specResolveId (fs : List (String × Json)) : Json :=
  firstNonNull (getFieldD fs "item_id")
    (firstNonNull (getFieldD fs "ID") (getFieldD fs "itemID"))

/-- A concrete client state with a configured key, for witnesses. -/
def exState : ApiState :=
  { baseUrl := "https://api.torn.com", apiKey := some "K1", session := none,
    nextId := 0, acquireCount := 0 }

/-- A concrete client state with the same base URL but a different
configured key, for the log noninterference witness. -/
def exState₂ : ApiState :=
  { baseUrl := "https://api.torn.com", apiKey := some "K2", session := none,
    nextId := 0, acquireCount := 0 }

/-- A concrete client state with no configured key. -/
def exStateNoKey : ApiState :=
  { baseUrl := "https://api.torn.com", apiKey := none, session := none,
    nextId := 0, acquireCount := 0 }

/-- A concrete client state holding a live (open) session handle. -/
def exStateLive : ApiState :=
  { baseUrl := "https://api.torn.com", apiKey := some "K1",
    session := some { id := 0, closed := false }, nextId := 1,
    acquireCount := 0 }

/-- Primary-endpoint feed from the spec's first Market Normalizer test
vector: listings for items 7 and 9. -/
def exFeed79 : NetResult :=
  NetResult.resp 200 (Except.ok (Json.obj [("itemmarket", Json.arr
    [Json.obj [("ID", Json.num 7), ("price", Json.num 100)],
     Json.obj [("ID", Json.num 9), ("price", Json.num 5)]])]))

/-- Secondary-endpoint feed from the spec's second Market Normalizer
test vector: one bazaar listing for item 42. -/
def exBazaar42 : NetResult :=
  NetResult.resp 200 (Except.ok (Json.obj [("bazaar", Json.arr
    [Json.obj [("ID", Json.num 42), ("price", Json.num 50)]])]))

/-- In a nonincreasing list, the entry at a later index is at most the
entry at an earlier index. -/
theorem sorted_le_of_le_index (hist : List Nat)
    (hs : hist.Sorted (fun a b => b ≤ a)) {i j : Nat} (hij : i ≤ j)
    {gi gj : Nat} (hi : hist[i]? = some gi) (hj : hist[j]? = some gj) :
    gj ≤ gi := by
  rcases List.getElem?_eq_some.mp hi with ⟨hilt, hig⟩
  rcases List.getElem?_eq_some.mp hj with ⟨hjlt, hjg⟩
  rcases Nat.lt_or_ge i j with hlt | hge
  · have hab : (⟨i, hilt⟩ : Fin hist.length) < ⟨j, hjlt⟩ := hlt
    have := List.Sorted.rel_get_of_lt hs hab
    simpa [List.get_eq_getElem, hig, hjg] using this
  · have : i = j := Nat.le_antisymm hij hge
    subst this
    simp [hig] at hjg
    omega

/-- The index `cap - 1` used by `rlAcquire` is in range once `cap`
grants exist, and `getD` reads the actual entry there. -/
theorem getD_capPred (cap : Nat) (hist : List Nat) (hcap : 0 < cap)
    (hlen : cap ≤ hist.length) :
    hist[cap - 1]? = some (hist.getD (cap - 1) 0) := by
  have h : cap - 1 < hist.length := by omega
  rw [List.getD_eq_getElem?_getD, List.getElem?_eq_getElem h]
  rfl

/-- One `acquire()` call preserves the rate-limiter invariant, moving the
arrival lower bound up to the current arrival: the grant completes no
earlier than the arrival (the caller is only delayed, never refused) and
the history gains exactly the one new grant. -/
theorem rlAcquire_inv (cap W t0 t : Nat) (hist : List Nat) (hcap : 0 < cap)
    (hinv : RLInv cap W t0 hist) (ht : t0 ≤ t) :
    RLInv cap W t (rlAcquire cap W hist t).2 ∧
      t ≤ (rlAcquire cap W hist t).1 ∧
      (rlAcquire cap W hist t).2 = (rlAcquire cap W hist t).1 :: hist := by
  have hsucc : cap = (cap - 1) + 1 := by omega
  unfold rlAcquire
  by_cases hlen : cap ≤ hist.length
  · simp only [hlen, if_pos]
    set gc := hist.getD (cap - 1) 0 with hgc
    set g := max t (gc + W) with hg
    have hcp : hist[cap - 1]? = some gc := getD_capPred cap hist hcap hlen
    have hne : hist ≠ [] := by
      intro hnil; rw [hnil] at hlen; simp at hlen; omega
    obtain ⟨h0, tl, rfl⟩ : ∃ h0 tl, hist = h0 :: tl := by
      cases hist with
      | nil => exact absurd rfl hne
      | cons a l => exact ⟨a, l, rfl⟩
    have hhead : h0 ≤ g := by
      cases hcapq : (h0 :: tl)[cap]? with
      | none =>
          have := hinv.headShallow hcapq h0 (by rfl)
          calc h0 ≤ t0 := this
            _ ≤ t := ht
            _ ≤ g := le_max_left _ _
      | some gcap =>
          have hd := hinv.headDeep h0 gcap (by rfl) hcapq
          have hle : gcap ≤ gc :=
            sorted_le_of_le_index _ hinv.sorted (by omega) hcp hcapq
          calc h0 ≤ max t0 (gcap + W) := hd
            _ ≤ max t (gc + W) := max_le_max ht (by omega)
    refine ⟨⟨?_, ?_, ?_, ?_⟩, le_max_left _ _, by trivial⟩
    · refine List.sorted_cons.mpr ⟨?_, hinv.sorted⟩
      intro b hb
      rcases List.mem_cons.mp hb with rfl | hbtl
      · exact hhead
      · exact le_trans (List.rel_of_sorted_cons hinv.sorted b hbtl) hhead
    · intro n g₁ g₂ hn hncap
      cases n with
      | zero =>
          simp only [List.getElem?_cons_zero, Option.some.injEq] at hn
          rw [Nat.zero_add, hsucc, List.getElem?_cons_succ, hcp] at hncap
          cases hncap
          rw [← hn]
          exact le_max_right _ _
      | succ m =>
          rw [List.getElem?_cons_succ] at hn
          have : m + 1 + cap = (m + cap) + 1 := by omega
          rw [this, List.getElem?_cons_succ] at hncap
          exact hinv.spacing m g₁ g₂ hn hncap
    · intro h gcap hh hcapq
      simp only [List.head?_cons, Option.some.injEq] at hh
      rw [hsucc, List.getElem?_cons_succ, hcp] at hcapq
      cases hcapq
      rw [← hh]
    · intro hnone
      rw [hsucc, List.getElem?_cons_succ, hcp] at hnone
      cases hnone
  · simp only [hlen, if_neg, not_false_iff]
    have hlen' : hist.length < cap := by omega
    have hcapnone : hist[cap - 1]? = none :=
      List.getElem?_eq_none (by omega)
    have hhead : ∀ b ∈ hist, b ≤ t := by
      intro b hb
      cases hist with
      | nil => simp at hb
      | cons h0 tl =>
          have hn0 : (h0 :: tl)[cap]? = none :=
            List.getElem?_eq_none (by simp at hlen' ⊢; omega)
          have h0t : h0 ≤ t0 := hinv.headShallow hn0 h0 (by rfl)
          rcases List.mem_cons.mp hb with rfl | hbtl
          · omega
          · have := List.rel_of_sorted_cons hinv.sorted b hbtl
            omega
    refine ⟨⟨?_, ?_, ?_, ?_⟩, le_refl t, by trivial⟩
    · exact List.sorted_cons.mpr ⟨hhead, hinv.sorted⟩
    · intro n g₁ g₂ hn hncap
      cases n with
      | zero =>
          rw [Nat.zero_add, hsucc, List.getElem?_cons_succ, hcapnone] at hncap
          cases hncap
      | succ m =>
          rw [List.getElem?_cons_succ] at hn
          have : m + 1 + cap = (m + cap) + 1 := by omega
          rw [this, List.getElem?_cons_succ] at hncap
          exact hinv.spacing m g₁ g₂ hn hncap
    · intro h gcap hh hcapq
      rw [hsucc, List.getElem?_cons_succ, hcapnone] at hcapq
      cases hcapq
    · intro _ h hh
      simp only [List.head?_cons, Option.some.injEq] at hh
      omega

/-- Running any FIFO sequence of acquisitions with nondecreasing arrival
times preserves the rate-limiter invariant. -/
theorem rlRun_inv (cap W : Nat) (hcap : 0 < cap) (ts : List Nat) :
    ∀ (t0 : Nat) (hist : List Nat), RLInv cap W t0 hist →
      List.Chain (· ≤ ·) t0 ts →
      ∃ t1, RLInv cap W t1 (rlRun cap W hist ts) := by
  induction ts with
  | nil =>
      intro t0 hist hinv _
      exact ⟨t0, hinv⟩
  | cons t ts ih =>
      intro t0 hist hinv hch
      rw [List.chain_cons] at hch
      have h := rlAcquire_inv cap W t0 t hist hcap hinv hch.1
      simp only [rlRun]
      exact ih t _ h.1 hch.2

/-- When every grant in the history lies below the right edge of the
window, at most `cap` grants lie inside the window: grants beyond index
`cap - 1` are pushed below its left edge by the spacing invariant. -/
theorem count_of_all_lt (cap W τ : Nat) (hist : List Nat)
    (hsp : ∀ n g g₂, hist[n]? = some g → hist[n + cap]? = some g₂ → g₂ + W ≤ g)
    (hall : ∀ x ∈ hist, x < τ + W) :
    hist.countP (inWin τ W) ≤ cap := by
  have hsplit : hist.countP (inWin τ W) =
      (hist.take cap).countP (inWin τ W) + (hist.drop cap).countP (inWin τ W) := by
    conv_lhs => rw [← List.take_append_drop cap hist]
    exact List.countP_append _ _ _
  have hdrop : (hist.drop cap).countP (inWin τ W) = 0 := by
    rw [List.countP_eq_zero]
    intro x hx
    obtain ⟨j, hj⟩ := List.mem_iff_getElem?.mp hx
    rw [List.getElem?_drop] at hj
    have hjlt : cap + j < hist.length := (List.getElem?_eq_some.mp hj).1
    have hjq : hist[j]? = some hist[j] := List.getElem?_eq_getElem (by omega)
    have hjcap : hist[j + cap]? = some x := by rw [Nat.add_comm j cap]; exact hj
    have hxW : x + W ≤ hist[j] := hsp j hist[j] x hjq hjcap
    have hmem : hist[j] ∈ hist := List.getElem_mem _
    have := hall hist[j] hmem
    simp only [inWin, Bool.and_eq_true, decide_eq_true_eq, not_and]
    intro hτx
    omega
  have htake : (hist.take cap).countP (inWin τ W) ≤ cap :=
    le_trans (List.countP_le_length _) (List.length_take_le cap hist)
  omega

/-- Sorted history with the spacing invariant admits at most `cap`
grants inside any sliding window of length `W`. -/
theorem count_window (cap W τ : Nat) (hist : List Nat)
    (hs : hist.Sorted (fun a b => b ≤ a))
    (hsp : ∀ n g g₂, hist[n]? = some g → hist[n + cap]? = some g₂ → g₂ + W ≤ g) :
    hist.countP (inWin τ W) ≤ cap := by
  induction hist with
  | nil => simp
  | cons h0 tl ih =>
      by_cases hlt : h0 < τ + W
      · apply count_of_all_lt cap W τ (h0 :: tl) hsp
        intro x hx
        rcases List.mem_cons.mp hx with rfl | hxtl
        · exact hlt
        · exact lt_of_le_of_lt (List.rel_of_sorted_cons hs x hxtl) hlt
      · have hfalse : ¬ inWin τ W h0 = true := by
          simp only [inWin, Bool.and_eq_true, decide_eq_true_eq, not_and]
          intro _
          omega
        rw [List.countP_cons_of_neg _ _ hfalse]
        refine ih hs.of_cons ?_
        intro n g g₂ hn hncap
        refine hsp (n + 1) g g₂ ?_ ?_
        · rw [List.getElem?_cons_succ]; exact hn
        · rw [show n + 1 + cap = (n + cap) + 1 by omega, List.getElem?_cons_succ]
          exact hncap

/-- Writing the key into a parameter dict leaves exactly one `key`
binding, given that the dict (as every Python dict) held at most one
before. -/
theorem setParam_count (l : Params) (k v : String)
    (h : l.countP (fun kv => kv.1 == k) ≤ 1) :
    (setParam l k v).countP (fun kv => kv.1 == k) = 1 := by
  induction l with
  | nil => simp [setParam]
  | cons kv rest ih =>
      obtain ⟨k₂, v₂⟩ := kv
      rw [List.countP_cons] at h
      by_cases hk : (k₂ == k) = true
      · have hrest : rest.countP (fun kv => kv.1 == k) = 0 := by
          simp only [hk, if_true] at h
          omega
        simp [setParam, hk, List.countP_cons, hrest]
      · simp only [Bool.not_eq_true] at hk
        have h₂ : rest.countP (fun kv => kv.1 == k) ≤ 1 := by
          simp only [hk, Bool.false_eq_true, if_false] at h
          omega
        simp [setParam, hk, List.countP_cons, ih h₂]

/-- After writing the key, looking it up yields the written value. -/
theorem setParam_lookup_same (l : Params) (k v : String) :
    lookupStr (setParam l k v) k = some v := by
  induction l with
  | nil => simp [setParam, lookupStr]
  | cons kv rest ih =>
      obtain ⟨k₂, v₂⟩ := kv
      by_cases hk : (k₂ == k) = true
      · simp [setParam, hk, lookupStr]
      · simp [setParam, hk, lookupStr, ih]

/-- Writing the key leaves every other binding unchanged. -/
theorem setParam_lookup_other (l : Params) (k v k₂ : String)
    (hne : k₂ ≠ k) :
    lookupStr (setParam l k v) k₂ = lookupStr l k₂ := by
  have hb : (k == k₂) = false := by
    simp only [beq_eq_false_iff_ne, ne_eq]
    intro h
    exact hne h.symm
  induction l with
  | nil => simp [setParam, lookupStr, hb]
  | cons kv rest ih =>
      obtain ⟨k₃, v₃⟩ := kv
      by_cases hk : (k₃ == k) = true
      · have hk₃ : (k₃ == k₂) = false := by
          have : k₃ = k := by simpa [beq_iff_eq] using hk
          subst this
          exact hb
        simp [setParam, hk, lookupStr, hb, hk₃]
      · simp [setParam, hk, lookupStr, ih]

/-- C1: for every endpoint and parameter mapping, `_make_request` never
raises to its caller — a timeout, any other dispatch exception (the
fourth conjunct covers every exception escaping the try body, malformed
responses included) and a non-200 HTTP status are each caught inside
`_make_request` and converted into the `None` sentinel. -/
theorem makeRequest_failures_to_sentinel (st : ApiState) (net : NetResult)
    (ep : String) (ps : Option Params) :
    (net = NetResult.timeout → (makeRequest st net ep ps).result = none) ∧
    (∀ m, net = NetResult.exn m → (makeRequest st net ep ps).result = none) ∧
    (∀ s b, net = NetResult.resp s b → s ≠ 200 →
      (makeRequest st net ep ps).result = none) ∧
    (∀ e, tryDispatch net (reqUrl st.baseUrl ep) = Except.error e →
      (makeRequest st net ep ps).result = none) := by
  by_cases hk : keyFalsy st.apiKey = true
  · refine ⟨?_, ?_, ?_, ?_⟩ <;> intros <;> simp [makeRequest, hk]
  · rw [Bool.not_eq_true] at hk
    refine ⟨?_, ?_, ?_, ?_⟩
    · rintro rfl
      simp [makeRequest, hk, tryDispatch]
    · rintro m rfl
      simp [makeRequest, hk, tryDispatch]
    · rintro s b rfl hs
      simp [makeRequest, hk, tryDispatch, hs]
    · intro e he
      cases e with
      | timeoutError => simp [makeRequest, hk, he]
      | otherExn m => simp [makeRequest, hk, he]

/-- Witness for C1: a concrete timed-out call yields the sentinel. -/
theorem makeRequest_failures_to_sentinel_witness :
    (makeRequest exState NetResult.timeout "user/1" (some [])).result = none :=
  (makeRequest_failures_to_sentinel exState NetResult.timeout "user/1"
    (some [])).1 rfl

/-- C3: with no authentication key configured, `_make_request` returns
the `None` sentinel immediately: the client state is untouched (in
particular no rate-limiter token is consumed), nothing is dispatched and
no session is obtained or used. -/
theorem makeRequest_nokey_immediate (st : ApiState) (net : NetResult)
    (ep : String) (ps : Option Params) (hk : keyFalsy st.apiKey = true) :
    (makeRequest st net ep ps).result = none ∧
    (makeRequest st net ep ps).state = st ∧
    (makeRequest st net ep ps).state.acquireCount = st.acquireCount ∧
    (makeRequest st net ep ps).dispatched = none ∧
    (makeRequest st net ep ps).usedSession = none := by
  simp [makeRequest, hk]

/-- Witness for C3 at a concrete key-less state. -/
theorem makeRequest_nokey_immediate_witness :
    (makeRequest exStateNoKey NetResult.timeout "user/1" (some [])).result = none ∧
    (makeRequest exStateNoKey NetResult.timeout "user/1" (some [])).state = exStateNoKey ∧
    (makeRequest exStateNoKey NetResult.timeout "user/1" (some [])).state.acquireCount =
      exStateNoKey.acquireCount ∧
    (makeRequest exStateNoKey NetResult.timeout "user/1" (some [])).dispatched = none ∧
    (makeRequest exStateNoKey NetResult.timeout "user/1" (some [])).usedSession = none :=
  makeRequest_nokey_immediate exStateNoKey NetResult.timeout "user/1" (some []) rfl

/-- C4: a decoded payload carrying a top-level `error` key is classified
as a logical failure and `_make_request` returns the `None` sentinel,
whatever the HTTP status code is. -/
theorem makeRequest_error_key_sentinel (st : ApiState) (ep : String)
    (ps : Option Params) (s : Nat) (fs : List (String × Json)) (detail : Json)
    (hdet : lookupField fs "error" = some detail) :
    (makeRequest st (NetResult.resp s (Except.ok (Json.obj fs))) ep ps).result =
      none := by
  by_cases hk : keyFalsy st.apiKey = true
  · simp [makeRequest, hk]
  · rw [Bool.not_eq_true] at hk
    by_cases hs : s = 200
    · subst hs
      simp [makeRequest, hk, tryDispatch, checkErrorKey, hdet]
    · simp [makeRequest, hk, tryDispatch, hs]

/-- Witness for C4: a 200 response whose payload is
`{"error": {"code": 2}}` yields the sentinel. -/
theorem makeRequest_error_key_sentinel_witness :
    (makeRequest exState (NetResult.resp 200 (Except.ok (Json.obj
      [("error", Json.obj [("code", Json.num 2)])]))) "user/1" none).result =
      none :=
  makeRequest_error_key_sentinel exState "user/1" none 200
    [("error", Json.obj [("code", Json.num 2)])]
    (Json.obj [("code", Json.num 2)]) rfl

/-- C8: `_get_session` never returns a closed handle and always leaves
the returned handle as the single cached one; a cached live handle is
returned unchanged; a fresh handle is created exactly when none exists
or the cached one is closed; after `close()` a further `_get_session`
yields a new handle distinct from the old live one. -/
theorem getSession_single_live_handle (st : ApiState) :
    (getSession st).1.closed = false ∧
    (getSession st).2.session = some (getSession st).1 ∧
    (∀ s, st.session = some s → s.closed = false → getSession st = (s, st)) ∧
    ((st.session = none ∨ ∃ s, st.session = some s ∧ s.closed = true) →
      (getSession st).1 = { id := st.nextId, closed := false }) ∧
    (∀ s, st.session = some s → s.closed = false → s.id < st.nextId →
      (getSession (closeApi st)).1 ≠ s ∧
      (getSession (closeApi st)).1.closed = false) := by
  refine ⟨?_, ?_, ?_, ?_, ?_⟩
  · cases hs : st.session with
    | none => simp [getSession, hs]
    | some s =>
        by_cases hc : s.closed = true
        · simp [getSession, hs, hc]
        · rw [Bool.not_eq_true] at hc
          simp [getSession, hs, hc]
  · cases hs : st.session with
    | none => simp [getSession, hs]
    | some s =>
        by_cases hc : s.closed = true
        · simp [getSession, hs, hc]
        · rw [Bool.not_eq_true] at hc
          simp [getSession, hs, hc]
  · intro s hs hc
    simp [getSession, hs, hc]
  · intro h
    rcases h with hs | ⟨s, hs, hc⟩
    · simp [getSession, hs]
    · simp [getSession, hs, hc]
  · intro s hs hc hid
    have hclose : (closeApi st).session = some { s with closed := true } := by
      simp [closeApi, hs, hc]
    have hnext : (closeApi st).nextId = st.nextId := by
      simp [closeApi, hs, hc]
    have hget : (getSession (closeApi st)).1 =
        { id := (closeApi st).nextId, closed := false } := by
      simp [getSession, hclose]
    rw [hget, hnext]
    refine ⟨?_, rfl⟩
    intro heq
    have : st.nextId = s.id := congrArg Session.id heq
    omega

/-- Witness for C8 at a concrete state holding a live handle. -/
theorem getSession_single_live_handle_witness :
    getSession exStateLive = ({ id := 0, closed := false }, exStateLive) ∧
    (getSession (closeApi exStateLive)).1 ≠ ({ id := 0, closed := false } : Session) :=
  ⟨(getSession_single_live_handle exStateLive).2.2.1
      { id := 0, closed := false } rfl rfl,
    ((getSession_single_live_handle exStateLive).2.2.2.2
      { id := 0, closed := false } rfl rfl (by decide)).1⟩

/-- C9: log noninterference and single key injection — two clients that
differ only in their (configured) keys produce identical logs for the
same call, so the key value never reaches a log message; the log URLs
are built from base URL and endpoint only; and the dispatched parameter
mapping carries exactly one `key` binding, holding the key. -/
theorem makeRequest_key_once_never_logged (st st₂ : ApiState)
    (net : NetResult) (ep : String) (ps : Option Params)
    (hbase : st.baseUrl = st₂.baseUrl)
    (hk : keyFalsy st.apiKey = false) (hk₂ : keyFalsy st₂.apiKey = false)
    (hud : ∀ l, ps = some l → l.countP (fun kv => kv.1 == "key") ≤ 1) :
    (makeRequest st net ep ps).log = (makeRequest st₂ net ep ps).log ∧
    (∀ url p, (makeRequest st net ep ps).dispatched = some (url, p) →
      url = reqUrl st.baseUrl ep ∧
      p.countP (fun kv => kv.1 == "key") = 1 ∧
      lookupStr p "key" = some (apiKeyStr st)) := by
  constructor
  · simp only [makeRequest, hk, hk₂, Bool.false_eq_true, if_false]
    rw [← hbase]
    cases htd : tryDispatch net (reqUrl st.baseUrl ep) with
    | ok v =>
        obtain ⟨res, lg⟩ := v
        simp
    | error e => cases e <;> simp
  · have hd₂ : (makeRequest st net ep ps).dispatched =
        some (reqUrl st.baseUrl ep, setParam (ps.getD []) "key" (apiKeyStr st)) := by
      simp only [makeRequest, hk, Bool.false_eq_true, if_false]
      cases htd : tryDispatch net (reqUrl st.baseUrl ep) with
      | ok v =>
          obtain ⟨res, lg⟩ := v
          simp
      | error e => cases e <;> simp
    intro url p hd
    rw [hd₂] at hd
    injection hd with hd
    rw [Prod.mk.injEq] at hd
    obtain ⟨h₁, h₂⟩ := hd
    subst h₁
    subst h₂
    refine ⟨rfl, ?_, setParam_lookup_same _ _ _⟩
    cases ps with
    | none => simp [setParam]
    | some l => exact setParam_count l "key" (apiKeyStr st) (hud l rfl)

/-- Witness for C9: two concrete clients with different keys, same log. -/
theorem makeRequest_key_once_never_logged_witness :
    (makeRequest exState NetResult.timeout "user/1"
      (some [("selections", "basic")])).log =
    (makeRequest exState₂ NetResult.timeout "user/1"
      (some [("selections", "basic")])).log :=
  (makeRequest_key_once_never_logged exState exState₂ NetResult.timeout "user/1"
    (some [("selections", "basic")]) rfl rfl rfl
    (by intro l hl; cases hl; decide)).1

/-- C10 counterexample: the claim promises the caller's mapping contains
the key after every call, success or failure; with no key configured,
`_make_request` fails (sentinel) without touching the mapping, which
therefore holds no `key` entry. -/
theorem makeRequest_params_nokey_cex :
    (makeRequest exStateNoKey NetResult.timeout "user/1"
      (some [("selections", "basic")])).callerParams =
      some [("selections", "basic")] ∧
    lookupStr [("selections", "basic")] "key" = none :=
  ⟨rfl, rfl⟩

/-- C10 amended: when a (truthy) key is configured and the caller passes
a non-`None` mapping, `_make_request` mutates that mapping in place by
writing the key under the `key` entry — after the call the mapping binds
`key` to the configured key and every other entry is unchanged. -/
theorem makeRequest_mutates_params (st : ApiState) (net : NetResult)
    (ep : String) (l : Params) (hk : keyFalsy st.apiKey = false) :
    (makeRequest st net ep (some l)).callerParams =
      some (setParam l "key" (apiKeyStr st)) ∧
    lookupStr (setParam l "key" (apiKeyStr st)) "key" = some (apiKeyStr st) ∧
    (∀ k, k ≠ "key" →
      lookupStr (setParam l "key" (apiKeyStr st)) k = lookupStr l k) := by
  refine ⟨?_, setParam_lookup_same l "key" (apiKeyStr st),
    fun k hkne => setParam_lookup_other l "key" (apiKeyStr st) k hkne⟩
  simp only [makeRequest, hk, Bool.false_eq_true, if_false]
  cases htd : tryDispatch net (reqUrl st.baseUrl ep) with
  | ok v =>
      obtain ⟨res, lg⟩ := v
      simp
  | error e => cases e <;> simp

/-- Witness for C10 (amended) at a concrete call: the mapping gains the
key binding and keeps its other entry. -/
theorem makeRequest_mutates_params_witness :
    (makeRequest exState NetResult.timeout "user/1"
      (some [("selections", "basic")])).callerParams =
      some [("selections", "basic"), ("key", "K1")] ∧
    lookupStr [("selections", "basic"), ("key", "K1")] "selections" =
      lookupStr [("selections", "basic")] "selections" :=
  ⟨(makeRequest_mutates_params exState NetResult.timeout "user/1"
      [("selections", "basic")] rfl).1,
    (makeRequest_mutates_params exState NetResult.timeout "user/1"
      [("selections", "basic")] rfl).2.2 "selections" (by decide)⟩

/-- C2: `get_item_market` first queries the `itemmarket` endpoint and
filters by the requested identifier; a non-empty filtered result is
returned as-is and the bazaar endpoint is never queried; exactly when no
primary listing matches, the `market?selections=bazaar` endpoint is
queried and its identifier-matching listings are returned. -/
theorem getItemMarket_two_tier (st : ApiState) (net₁ net₂ : NetResult)
    (itemId : Json) :
    (getItemMarket st net₁ net₂ itemId).primaryCall =
      makeRequest st net₁ "itemmarket" (some []) ∧
    (primaryListings (makeRequest st net₁ "itemmarket" (some [])).result itemId ≠ [] →
      (getItemMarket st net₁ net₂ itemId).secondaryCall = none ∧
      (getItemMarket st net₁ net₂ itemId).result = Json.arr
        (primaryListings (makeRequest st net₁ "itemmarket" (some [])).result itemId)) ∧
    (primaryListings (makeRequest st net₁ "itemmarket" (some [])).result itemId = [] →
      (getItemMarket st net₁ net₂ itemId).secondaryCall =
        some (makeRequest (makeRequest st net₁ "itemmarket" (some [])).state net₂
          "market" (some [("selections", "bazaar")])) ∧
      (getItemMarket st net₁ net₂ itemId).result = Json.arr
        (secondaryListings
          (makeRequest (makeRequest st net₁ "itemmarket" (some [])).state net₂
            "market" (some [("selections", "bazaar")])).result itemId)) := by
  by_cases hpl :
      primaryListings (makeRequest st net₁ "itemmarket" (some [])).result itemId = []
  · refine ⟨?_, fun h => absurd hpl h, fun _ => ⟨?_, ?_⟩⟩ <;>
      simp [getItemMarket, hpl]
  · refine ⟨?_, fun _ => ⟨?_, ?_⟩, fun h => absurd h hpl⟩ <;>
      simp [getItemMarket, List.isEmpty_iff, hpl]

/-- Witness for C2 on the spec's first test vector: a primary feed with
listings for items 7 and 9 and a request for item 7 returns exactly the
item-7 listing without querying the bazaar endpoint. -/
theorem getItemMarket_two_tier_witness :
    (getItemMarket exState exFeed79 NetResult.timeout (Json.num 7)).secondaryCall =
      none ∧
    (getItemMarket exState exFeed79 NetResult.timeout (Json.num 7)).result =
      Json.arr [Json.obj [("ID", Json.num 7), ("price", Json.num 100)]] :=
  ⟨((getItemMarket_two_tier exState exFeed79 NetResult.timeout (Json.num 7)).2.1
      (List.cons_ne_nil _ _)).1,
    ((getItemMarket_two_tier exState exFeed79 NetResult.timeout (Json.num 7)).2.1
      (List.cons_ne_nil _ _)).2⟩

/-- C6 counterexample: the code resolves the first *truthy* identifier
field, not the first non-null one.  The listing
`{"item_id": 0, "ID": 5}` has first non-null identifier `0`, so under
the claim a request for item `0` matches it; the code skips the falsy
`0`, resolves `5`, and does not match. -/
theorem resolveId_nonnull_cex :
    specResolveId [("item_id", Json.num 0), ("ID", Json.num 5)] = Json.num 0 ∧
    pyEq (specResolveId [("item_id", Json.num 0), ("ID", Json.num 5)])
      (Json.num 0) = true ∧
    itemMatchesPrimary (Json.num 0)
      (Json.obj [("item_id", Json.num 0), ("ID", Json.num 5)]) = false ∧
    primaryListings
      (some (Json.obj [("itemmarket", Json.arr
        [Json.obj [("item_id", Json.num 0), ("ID", Json.num 5)]])]))
      (Json.num 0) = [] :=
  ⟨rfl, rfl, rfl, rfl⟩

/-- C6 amended: `get_item_market` resolves a primary listing's
identifier as the first *truthy* value among the field names `item_id`,
`ID`, `itemID` in that priority order and matches it against the
requested identifier; in particular a listing exposing only a truthy
second-priority `ID` field is matched through that field. -/
theorem resolveId_truthy_priority (fs : List (String × Json)) (itemId : Json) :
    ((getFieldD fs "item_id").truthy = true →
      itemMatchesPrimary itemId (Json.obj fs) =
        pyEq (getFieldD fs "item_id") itemId) ∧
    ((getFieldD fs "item_id").truthy = false →
      (getFieldD fs "ID").truthy = true →
      itemMatchesPrimary itemId (Json.obj fs) =
        pyEq (getFieldD fs "ID") itemId) ∧
    ((getFieldD fs "item_id").truthy = false →
      (getFieldD fs "ID").truthy = false →
      itemMatchesPrimary itemId (Json.obj fs) =
        pyEq (getFieldD fs "itemID") itemId) := by
  refine ⟨fun h₁ => ?_, fun h₁ h₂ => ?_, fun h₁ h₂ => ?_⟩ <;>
    simp [itemMatchesPrimary, resolveMarketId, pyOr, h₁]
  · simp [h₂]
  · simp [h₂]

/-- Witness for C6 (amended): a listing exposing only `ID` is matched
through that field. -/
theorem resolveId_truthy_priority_witness :
    itemMatchesPrimary (Json.num 7) (Json.obj [("ID", Json.num 7)]) =
      pyEq (getFieldD [("ID", Json.num 7)] "ID") (Json.num 7) :=
  (resolveId_truthy_priority [("ID", Json.num 7)] (Json.num 7)).2.1 rfl rfl

/-- C7: `get_item_market` always returns a JSON list (never the `None`
sentinel), and when neither endpoint contributes a matching listing —
including every internal failure shape — the list is empty. -/
theorem getItemMarket_always_list (st : ApiState) (net₁ net₂ : NetResult)
    (itemId : Json) :
    (∃ xs, (getItemMarket st net₁ net₂ itemId).result = Json.arr xs) ∧
    (primaryListings (makeRequest st net₁ "itemmarket" (some [])).result itemId = [] →
      secondaryListings
        (makeRequest (makeRequest st net₁ "itemmarket" (some [])).state net₂
          "market" (some [("selections", "bazaar")])).result itemId = [] →
      (getItemMarket st net₁ net₂ itemId).result = Json.arr []) := by
  by_cases hpl :
      primaryListings (makeRequest st net₁ "itemmarket" (some [])).result itemId = []
  · constructor
    · exact ⟨secondaryListings
        (makeRequest (makeRequest st net₁ "itemmarket" (some [])).state net₂
          "market" (some [("selections", "bazaar")])).result itemId,
        by simp [getItemMarket, hpl]⟩
    · intro _ hsl
      simp [getItemMarket, hpl, hsl]
  · constructor
    · exact ⟨primaryListings
        (makeRequest st net₁ "itemmarket" (some [])).result itemId,
        by simp [getItemMarket, List.isEmpty_iff, hpl]⟩
    · intro h
      exact absurd h hpl

/-- Witness for C7: with both requests timing out the result is the
empty list. -/
theorem getItemMarket_always_list_witness :
    (getItemMarket exState NetResult.timeout NetResult.timeout
      (Json.num 7)).result = Json.arr [] :=
  (getItemMarket_always_list exState NetResult.timeout NetResult.timeout
    (Json.num 7)).2 rfl rfl

/-- C5 (rate limiter modelled from the spec): for every FIFO sequence of
`acquire()` calls with nondecreasing arrival times, no more than
`capacity` acquisitions complete within any sliding window of `W`
seconds; and `acquire()` never fails — every call completes with exactly
one grant, no earlier than its arrival (it only delays the caller). -/
theorem rateLimiter_window_bound (cap W : Nat) (ts : List Nat)
    (hcap : 0 < cap) (hts : List.Chain (· ≤ ·) 0 ts) :
    (∀ τ, (rlRun cap W [] ts).countP (inWin τ W) ≤ cap) ∧
    (∀ hist t, t ≤ (rlAcquire cap W hist t).1 ∧
      (rlAcquire cap W hist t).2 = (rlAcquire cap W hist t).1 :: hist) := by
  constructor
  · have hinit : RLInv cap W 0 [] := by
      constructor
      · exact List.sorted_nil
      · intro n g g₂ hn _
        simp at hn
      · intro h gc hh _
        simp at hh
      · intro _ h hh
        simp at hh
    obtain ⟨t1, hinv⟩ := rlRun_inv cap W hcap ts 0 [] hinit hts
    intro τ
    exact count_window cap W τ _ hinv.sorted hinv.spacing
  · intro hist t
    unfold rlAcquire
    by_cases hlen : cap ≤ hist.length
    · simp [hlen, le_max_left]
    · simp [hlen]

/-- Witness for C5: capacity 2, window 60, three immediate arrivals —
the window starting at 0 holds at most 2 grants. -/
theorem rateLimiter_window_bound_witness :
    (rlRun 2 60 [] [0, 0, 0]).countP (inWin 0 60) ≤ 2 :=
  (rateLimiter_window_bound 2 60 [0, 0, 0] (by decide)
    (by simp [List.chain_cons])).1 0
